import Mathlib

/-!
# Verification of `retirement_calculator.py`

A shallow embedding of `retirement_projection` from
`src/retirement_calculator.py`. Money amounts and rates are modelled as
rationals (`ℚ`), ages and year counts as integers (`ℤ`), matching the
Python `int`/`float` parameters with exact arithmetic. Python operations
that can raise `ZeroDivisionError` (division by zero, and raising `0.0`
to a negative power) are modelled with `Option`: `none` stands for the
raised exception, so `retirement_projection ... = none` means the Python
function raises instead of returning a result.
-/

/-- One row of the year-by-year schedule: the tuple
`(retirement_age + year - 1, balance + annual_withdrawal, annual_withdrawal, balance)`
appended at line 33 of the source, where `balance` is the already-updated
balance of that year. -/
structure ScheduleRow where
  age : Int
  start_balance : ℚ
  withdrawal : ℚ
  end_balance : ℚ
  deriving DecidableEq

/-- The dictionary returned at lines 35-41 of the source. -/
structure ProjectionResult where
  accumulation_years : Int
  nest_egg_at_retirement : ℚ
  annual_withdrawal : ℚ
  monthly_withdrawal : ℚ
  schedule : List ScheduleRow
  deriving DecidableEq

/-- Python's `base ** e` for a real base and integer exponent: raising zero
to a negative power raises `ZeroDivisionError` (modelled as `none`);
otherwise it is the mathematical power (`zpow` on `ℚ`). -/
def pyPow (base : ℚ) (e : Int) : Option ℚ :=
  if base = 0 ∧ e < 0 then none else some (base ^ e)

/-- Python's `a / b`: division by zero raises `ZeroDivisionError`
(modelled as `none`). -/
def pyDiv (a b : ℚ) : Option ℚ :=
  if b = 0 then none else some (a / b)

/-- The loop of lines 30-33 of the source, one recursive step per
iteration of `for year in range(1, n + 1)`: `fuel` counts the remaining
iterations, `year` is the Python loop variable, `balance` the running
balance. Each step computes `interest = balance * r`,
`balance = balance + interest - annual_withdrawal`, and appends the row
`(retirement_age + year - 1, balance + annual_withdrawal, annual_withdrawal, balance)`
with the updated `balance`. -/
def distributionLoop (retirement_age : Int) (r annual_withdrawal : ℚ) :
    Nat → Int → ℚ → List ScheduleRow
  | 0, _, _ => []
  | fuel + 1, year, balance =>
    let interest := balance * r
    let balance2 := balance + interest - annual_withdrawal
    ⟨retirement_age + year - 1, balance2 + annual_withdrawal, annual_withdrawal, balance2⟩ ::
      distributionLoop retirement_age r annual_withdrawal fuel (year + 1) balance2

/-- Shallow embedding of `retirement_projection` (lines 6-41 of
`src/retirement_calculator.py`). The source performs no input validation;
the only failure points are the two powers and the two divisions, each of
which can raise `ZeroDivisionError` in Python, modelled here by `none`.
`range(1, n + 1)` iterates `n.toNat` times. -/
def retirement_projection (current_age : Int) (current_savings : ℚ)
    (retirement_age : Int) (years_in_retirement : Int)
    (annual_growth_rate : ℚ) : Option ProjectionResult :=
  let r := annual_growth_rate
  let accumulation_years := retirement_age - current_age
  match pyPow (1 + r) accumulation_years with
  | none => none
  | some growth =>
      let nest_egg := current_savings * growth
      let n := years_in_retirement
      match pyPow (1 + r) (-n) with
      | none => none
      | some p =>
          match pyDiv (1 - p) r with
          | none => none
          | some annuity_factor =>
              match pyDiv nest_egg annuity_factor with
              | none => none
              | some annual_withdrawal =>
                  some ⟨accumulation_years, nest_egg, annual_withdrawal,
                    annual_withdrawal / 12,
                    distributionLoop retirement_age r annual_withdrawal
                      n.toNat 1 nest_egg⟩

/-- The balance update of one loop iteration (line 32 of the source):
`balance + balance * r - annual_withdrawal`. -/
def stepBal (r W x : ℚ) : ℚ :=
  x + x * r - W

/-- The running balance entering iteration `i` (0-indexed) of the
distribution loop, starting from `b`. -/
def balAt (r W b : ℚ) (i : Nat) : ℚ :=
  (stepBal r W)^[i] b

/-- Multiply every monetary field of a schedule row by `k`, leaving the
age unchanged. -/
def scaleRow (k : ℚ) (row : ScheduleRow) : ScheduleRow :=
  ⟨row.age, k * row.start_balance, k * row.withdrawal, k * row.end_balance⟩

/-- Multiply every monetary field of a projection result by `k`, leaving
`accumulation_years` and the ages unchanged. -/
def scaleResult (k : ℚ) (res : ProjectionResult) : ProjectionResult :=
  ⟨res.accumulation_years, k * res.nest_egg_at_retirement,
    k * res.annual_withdrawal, k * res.monthly_withdrawal,
    res.schedule.map (scaleRow k)⟩

theorem balAt_zero (r W b : ℚ) : balAt r W b 0 = b := rfl

theorem balAt_succ (r W b : ℚ) (i : Nat) :
    balAt r W b (i + 1) = balAt r W (stepBal r W b) i :=
  Function.iterate_succ_apply (stepBal r W) i b

theorem balAt_succ_eq_step (r W b : ℚ) (i : Nat) :
    balAt r W b (i + 1) = stepBal r W (balAt r W b i) :=
  Function.iterate_succ_apply' (stepBal r W) i b

theorem distributionLoop_length (ra : Int) (r W : ℚ) :
    ∀ (fuel : Nat) (year : Int) (b : ℚ),
      (distributionLoop ra r W fuel year b).length = fuel
  | 0, _, _ => rfl
  | fuel + 1, year, b => by
    simp only [distributionLoop, List.length_cons,
      distributionLoop_length ra r W fuel (year + 1)]

/-- Closed form for the `i`-th row produced by the distribution loop:
its start balance is the entering balance with that year's interest
credited, and its end balance is the entering balance of the next year. -/
theorem distributionLoop_getElem (ra : Int) (r W : ℚ) :
    ∀ (fuel i : Nat) (year : Int) (b : ℚ), i < fuel →
      (distributionLoop ra r W fuel year b)[i]? =
        some ⟨ra + year + i - 1, balAt r W b i + balAt r W b i * r, W,
          stepBal r W (balAt r W b i)⟩
  | fuel + 1, 0, year, b, _ => by
    simp only [distributionLoop, List.getElem?_cons_zero, balAt_zero,
      Nat.cast_zero, add_zero, Option.some.injEq, ScheduleRow.mk.injEq, stepBal]
    refine ⟨?_, ?_, ?_, ?_⟩ <;> first | trivial | ring
  | fuel + 1, i + 1, year, b, h => by
    have ih := distributionLoop_getElem ra r W fuel i (year + 1)
      (b + b * r - W) (by omega)
    simp only [distributionLoop, List.getElem?_cons_succ]
    rw [ih]
    have hb : (b + b * r - W) = stepBal r W b := rfl
    rw [hb, ← balAt_succ]
    congr 1
    have hage : ra + (year + 1) + (i : Int) - 1 = ra + year + ((i : Nat) + 1 : Nat) - 1 := by
      push_cast
      ring
    rw [hage]

/-- Every row emitted by the distribution loop stores, by construction,
a start balance equal to its end balance plus the withdrawal. -/
theorem distributionLoop_row_mem (ra : Int) (r W : ℚ) :
    ∀ (fuel : Nat) (year : Int) (b : ℚ),
      ∀ row ∈ distributionLoop ra r W fuel year b,
        row.start_balance = row.end_balance + row.withdrawal
  | 0, _, _ => by
    intro row hrow
    simp [distributionLoop] at hrow
  | fuel + 1, year, b => by
    intro row hrow
    simp only [distributionLoop, List.mem_cons] at hrow
    rcases hrow with h | h
    · subst h
      ring
    · exact distributionLoop_row_mem ra r W fuel (year + 1) _ row h

/-- Scaling the withdrawal and the starting balance by `k` scales every
row of the distribution loop by `k`. -/
theorem distributionLoop_scale (ra : Int) (r W k : ℚ) :
    ∀ (fuel : Nat) (year : Int) (b : ℚ),
      distributionLoop ra r (k * W) fuel year (k * b) =
        (distributionLoop ra r W fuel year b).map (scaleRow k)
  | 0, _, _ => rfl
  | fuel + 1, year, b => by
    have hstep : k * b + k * b * r - k * W = k * (b + b * r - W) := by ring
    simp only [distributionLoop, List.map_cons, hstep,
      distributionLoop_scale ra r W k fuel (year + 1) (b + b * r - W)]
    congr 1
    simp only [scaleRow]
    congr 1
    ring

/-- Characterization of a successful run of `retirement_projection`:
the rate and the annuity factor are nonzero, and the result record is
exactly the one built from the source's formulas. -/
theorem retirement_projection_some_elim (ca : Int) (cs : ℚ) (ra n : Int) (r : ℚ)
    (res : ProjectionResult)
    (h : retirement_projection ca cs ra n r = some res) :
    r ≠ 0 ∧ (1 - (1 + r) ^ (-n)) / r ≠ 0 ∧
    res = ⟨ra - ca, cs * (1 + r) ^ (ra - ca),
      cs * (1 + r) ^ (ra - ca) / ((1 - (1 + r) ^ (-n)) / r),
      cs * (1 + r) ^ (ra - ca) / ((1 - (1 + r) ^ (-n)) / r) / 12,
      distributionLoop ra r (cs * (1 + r) ^ (ra - ca) / ((1 - (1 + r) ^ (-n)) / r))
        n.toNat 1 (cs * (1 + r) ^ (ra - ca))⟩ := by
  unfold retirement_projection pyPow pyDiv at h
  dsimp only at h
  split_ifs at h with h1 h2 h3
  simp only [] at h
  split_ifs at h with h4
  simp only [] at h
  exact ⟨h3, h4, (Option.some.inj h).symm⟩

/-- Constructor form of a successful run: whenever `1 + r`, `r` and the
annuity factor are nonzero, `retirement_projection` returns the record
built from the source's formulas. -/
theorem retirement_projection_some_intro (ca : Int) (cs : ℚ) (ra n : Int) (r : ℚ)
    (h1 : 1 + r ≠ 0) (h3 : r ≠ 0) (h4 : (1 - (1 + r) ^ (-n)) / r ≠ 0) :
    retirement_projection ca cs ra n r =
      some ⟨ra - ca, cs * (1 + r) ^ (ra - ca),
        cs * (1 + r) ^ (ra - ca) / ((1 - (1 + r) ^ (-n)) / r),
        cs * (1 + r) ^ (ra - ca) / ((1 - (1 + r) ^ (-n)) / r) / 12,
        distributionLoop ra r (cs * (1 + r) ^ (ra - ca) / ((1 - (1 + r) ^ (-n)) / r))
          n.toNat 1 (cs * (1 + r) ^ (ra - ca))⟩ := by
  have ha : ¬(1 + r = 0 ∧ ra - ca < 0) := fun hc => h1 hc.1
  have hb : ¬(1 + r = 0 ∧ -n < 0) := fun hc => h1 hc.1
  unfold retirement_projection pyPow pyDiv
  dsimp only
  simp only [if_neg ha, if_neg hb, if_neg h3, if_neg h4]

/-- C1 counterexample: with the spec's example inputs but
`annual_growth_rate = 0`, `retirement_projection` raises
`ZeroDivisionError` (modelled as `none`); it does not return a
straight-line result with `annual_withdrawal = nest_egg / years_in_retirement`. -/
theorem zero_rate_raises_at_example :
    retirement_projection 44 2000000 50 20 0 = none := by
  with_unfolding_all rfl

/-- C1 (amended): if `annual_growth_rate = 0` (with
`retirement_age > current_age` and `years_in_retirement ≥ 1`), the
annuity-factor division `(1 - (1 + r) ** -n) / r` divides by zero, so
`retirement_projection` raises `ZeroDivisionError` and returns no result:
the source has no straight-line special case for a zero rate. -/
theorem zero_rate_returns_none (ca : Int) (cs : ℚ) (ra n : Int)
    (hra : ca < ra) (hn : 1 ≤ n) :
    retirement_projection ca cs ra n 0 = none := by
  unfold retirement_projection pyPow pyDiv
  dsimp only
  norm_num

/-- C1 witness: the amended zero-rate theorem at concrete inputs. -/
theorem zero_rate_returns_none_witness :
    retirement_projection 30 1000 40 10 0 = none :=
  zero_rate_returns_none 30 1000 40 10 (by decide) (by decide)

/-- C2 counterexample: the spec's invalid-input scenario
(`retirement_age = 40 < current_age = 44`) is not rejected with an
`InvalidConfiguration` error: the function returns a full result with a
20-row schedule. -/
theorem invalid_configuration_not_rejected :
    (retirement_projection 44 1000 40 20 (7/100)).map
      (fun res => res.schedule.length) = some 20 := by
  with_unfolding_all rfl

/-- C2 (amended): `retirement_projection` performs no input validation
at all: for every positive rate and `years_in_retirement ≥ 1` it returns
a full result with a schedule of length `years_in_retirement`, including
when `retirement_age ≤ current_age` or `current_savings < 0`; the only
failure mode of the function is `ZeroDivisionError` from its arithmetic. -/
theorem no_input_validation (ca : Int) (cs : ℚ) (ra n : Int) (r : ℚ)
    (hr : 0 < r) (hn : 1 ≤ n) :
    (retirement_projection ca cs ra n r).map
      (fun res => (res.schedule.length : Int)) = some n := by
  have h1 : (1:ℚ) < 1 + r := by linarith
  have hlt : (1 + r) ^ (-n) < 1 := zpow_lt_one_of_neg₀ h1 (by omega)
  have hfac : (1 - (1 + r) ^ (-n)) / r ≠ 0 :=
    div_ne_zero (by linarith) (ne_of_gt hr)
  rw [retirement_projection_some_intro ca cs ra n r (by linarith) (ne_of_gt hr) hfac]
  simp only [Option.map_some']
  rw [distributionLoop_length, Int.toNat_of_nonneg (by omega)]

/-- C2 witness: the no-validation theorem at inputs that are invalid in
the spec's sense (`retirement_age < current_age` and negative savings). -/
theorem no_input_validation_witness :
    (retirement_projection 44 (-1000) 40 3 1).map
      (fun res => (res.schedule.length : Int)) = some 3 :=
  no_input_validation 44 (-1000) 40 3 1 one_pos (by decide)

/-- C3 counterexample: at `current_age = 0`, `current_savings = 100`,
`retirement_age = 1`, `years_in_retirement = 1`, `rate = 1`, the single
schedule row has `end_balance = 0` while
`start_balance + start_balance * rate - withdrawal = 400`: the claimed
per-row relation fails on this schedule. -/
theorem row_growth_relation_fails :
    (retirement_projection 0 100 1 1 1).map
      (fun res => res.schedule.map
        (fun row => decide (row.end_balance =
          row.start_balance + row.start_balance * 1 - row.withdrawal))) =
      some [false] := by
  with_unfolding_all rfl

/-- C3 (amended): for every valid input and every returned schedule row,
`end_balance = start_balance - withdrawal`: the row's `start_balance` is
the balance *after* that year's interest has been credited (the source
stores the post-update `balance + annual_withdrawal`), so no growth term
appears in the row-local relation. -/
theorem row_balance_relation (ca : Int) (cs : ℚ) (ra n : Int) (r : ℚ)
    (hr : r ≠ 0) (hra : ca < ra) (hn : 1 ≤ n) (hcs : 0 ≤ cs)
    (res : ProjectionResult)
    (h : retirement_projection ca cs ra n r = some res) :
    ∀ row ∈ res.schedule, row.end_balance = row.start_balance - row.withdrawal := by
  obtain ⟨-, -, rfl⟩ := retirement_projection_some_elim ca cs ra n r res h
  intro row hrow
  have hs := distributionLoop_row_mem ra r _ n.toNat 1 _ row hrow
  rw [hs]
  ring

/-- C3 witness: the amended row relation at concrete inputs, applied to
the single row of the returned schedule. -/
theorem row_balance_relation_witness :
    (⟨1, 400, 400, 0⟩ : ScheduleRow).end_balance =
      (⟨1, 400, 400, 0⟩ : ScheduleRow).start_balance -
        (⟨1, 400, 400, 0⟩ : ScheduleRow).withdrawal :=
  row_balance_relation 0 100 1 1 1 one_ne_zero (by decide) (by decide) (by norm_num)
    ⟨1, 200, 400, 100/3, [⟨1, 400, 400, 0⟩]⟩ (by with_unfolding_all rfl)
    ⟨1, 400, 400, 0⟩ (List.Mem.head _)

/-- C9: every returned schedule row satisfies
`start_balance = end_balance + withdrawal` exactly: the stored start
balance is the post-interest balance, so the row encodes only the
withdrawal step. -/
theorem row_start_eq_end_plus_withdrawal (ca : Int) (cs : ℚ) (ra n : Int) (r : ℚ)
    (hr : r ≠ 0) (hn : 1 ≤ n)
    (res : ProjectionResult)
    (h : retirement_projection ca cs ra n r = some res) :
    ∀ row ∈ res.schedule, row.start_balance = row.end_balance + row.withdrawal := by
  obtain ⟨-, -, rfl⟩ := retirement_projection_some_elim ca cs ra n r res h
  exact distributionLoop_row_mem ra r _ n.toNat 1 _

/-- C9 witness: the exact start-balance identity at concrete inputs,
applied to the first row of the returned schedule. -/
theorem row_start_eq_end_plus_withdrawal_witness :
    (⟨1, 400, 800/3, 400/3⟩ : ScheduleRow).start_balance =
      (⟨1, 400, 800/3, 400/3⟩ : ScheduleRow).end_balance +
        (⟨1, 400, 800/3, 400/3⟩ : ScheduleRow).withdrawal :=
  row_start_eq_end_plus_withdrawal 0 100 1 2 1 one_ne_zero (by decide)
    ⟨1, 200, 800/3, 200/9, [⟨1, 400, 800/3, 400/3⟩, ⟨2, 800/3, 800/3, 0⟩]⟩
    (by with_unfolding_all rfl) ⟨1, 400, 800/3, 400/3⟩ (List.Mem.head _)

/-- C4 counterexample: at `current_age = 0`, `current_savings = 100`,
`retirement_age = 1`, `years_in_retirement = 2`, `rate = 1`, the nest egg
is `200` yet row 0 has `start_balance = 400`, and row 0 ends at `400/3`
while row 1 starts at `800/3`: neither part of the claimed chaining holds. -/
theorem schedule_chaining_fails :
    (retirement_projection 0 100 1 2 1).map
      (fun res => (res.nest_egg_at_retirement,
        res.schedule.map ScheduleRow.start_balance,
        res.schedule.map ScheduleRow.end_balance)) =
      some (200, [400, 800/3], [400/3, 0]) ∧
    (400 : ℚ) ≠ 200 ∧ (800/3 : ℚ) ≠ 400/3 :=
  ⟨by with_unfolding_all rfl, by norm_num, by norm_num⟩

/-- C4 (amended): the schedule chains geometrically, not identically:
row 0's `start_balance` equals `nest_egg_at_retirement * (1 + rate)`, and
each adjacent pair satisfies
`row (i+1) start_balance = row i end_balance * (1 + rate)`, because every
stored start balance is the balance after that year's interest. -/
theorem schedule_chaining (ca : Int) (cs : ℚ) (ra n : Int) (r : ℚ)
    (hr : r ≠ 0) (hra : ca < ra) (hn : 1 ≤ n) (hcs : 0 ≤ cs)
    (res : ProjectionResult)
    (h : retirement_projection ca cs ra n r = some res) :
    (∀ row0 ∈ res.schedule[0]?,
      row0.start_balance = res.nest_egg_at_retirement * (1 + r)) ∧
    (∀ i : Nat, ∀ rowi ∈ res.schedule[i]?, ∀ rowj ∈ res.schedule[i + 1]?,
      rowj.start_balance = rowi.end_balance * (1 + r)) := by
  obtain ⟨-, -, rfl⟩ := retirement_projection_some_elim ca cs ra n r res h
  dsimp only
  constructor
  · intro row0 h0
    have hlt : 0 < n.toNat := by omega
    rw [Option.mem_def, distributionLoop_getElem ra r _ n.toNat 0 1 _ hlt] at h0
    obtain rfl := Option.some.inj h0
    rw [balAt_zero]
    ring
  · intro i rowi hi rowj hj
    rw [Option.mem_def] at hi hj
    have hlen2 : i + 1 < n.toNat := by
      by_contra hc
      rw [List.getElem?_eq_none (by rw [distributionLoop_length]; omega)] at hj
      exact Option.noConfusion hj
    rw [distributionLoop_getElem ra r _ n.toNat i 1 _ (by omega)] at hi
    rw [distributionLoop_getElem ra r _ n.toNat (i + 1) 1 _ hlen2] at hj
    obtain rfl := Option.some.inj hi
    obtain rfl := Option.some.inj hj
    rw [balAt_succ_eq_step]
    ring

/-- C4 witness: the amended chaining theorem at concrete inputs. -/
theorem schedule_chaining_witness :
    (∀ row0 ∈ (⟨1, 200, 800/3, 200/9, [⟨1, 400, 800/3, 400/3⟩, ⟨2, 800/3, 800/3, 0⟩]⟩ :
        ProjectionResult).schedule[0]?,
      row0.start_balance =
        (⟨1, 200, 800/3, 200/9, [⟨1, 400, 800/3, 400/3⟩, ⟨2, 800/3, 800/3, 0⟩]⟩ :
          ProjectionResult).nest_egg_at_retirement * (1 + 1)) ∧
    (∀ i : Nat, ∀ rowi ∈ (⟨1, 200, 800/3, 200/9, [⟨1, 400, 800/3, 400/3⟩, ⟨2, 800/3, 800/3, 0⟩]⟩ :
        ProjectionResult).schedule[i]?,
      ∀ rowj ∈ (⟨1, 200, 800/3, 200/9, [⟨1, 400, 800/3, 400/3⟩, ⟨2, 800/3, 800/3, 0⟩]⟩ :
        ProjectionResult).schedule[i + 1]?,
      rowj.start_balance = rowi.end_balance * (1 + 1)) :=
  schedule_chaining 0 100 1 2 1 one_ne_zero (by decide) (by decide) (by norm_num)
    _ (by with_unfolding_all rfl)

/-- C5: whenever `retirement_projection` returns a result (any valid
input with nonzero rate), `annual_withdrawal` equals the ordinary-annuity
value `nest_egg * rate / (1 - (1 + rate) ^ (-years_in_retirement))` and
`monthly_withdrawal = annual_withdrawal / 12`. -/
theorem annual_withdrawal_formula (ca : Int) (cs : ℚ) (ra n : Int) (r : ℚ)
    (hr : r ≠ 0) (hra : ca < ra) (hn : 1 ≤ n) (hcs : 0 ≤ cs)
    (res : ProjectionResult)
    (h : retirement_projection ca cs ra n r = some res) :
    res.annual_withdrawal =
      res.nest_egg_at_retirement * r / (1 - (1 + r) ^ (-n)) ∧
    res.monthly_withdrawal = res.annual_withdrawal / 12 := by
  obtain ⟨-, -, rfl⟩ := retirement_projection_some_elim ca cs ra n r res h
  dsimp only
  exact ⟨div_div_eq_mul_div _ _ _, rfl⟩

/-- C5 witness: the annuity formula at concrete inputs. -/
theorem annual_withdrawal_formula_witness :
    (⟨1, 200, 400, 100/3, [⟨1, 400, 400, 0⟩]⟩ : ProjectionResult).annual_withdrawal =
      (⟨1, 200, 400, 100/3, [⟨1, 400, 400, 0⟩]⟩ :
        ProjectionResult).nest_egg_at_retirement * 1 / (1 - (1 + 1) ^ (-(1 : Int))) ∧
    (⟨1, 200, 400, 100/3, [⟨1, 400, 400, 0⟩]⟩ : ProjectionResult).monthly_withdrawal =
      (⟨1, 200, 400, 100/3, [⟨1, 400, 400, 0⟩]⟩ : ProjectionResult).annual_withdrawal / 12 :=
  annual_withdrawal_formula 0 100 1 1 1 one_ne_zero (by decide) (by decide) (by norm_num)
    _ (by with_unfolding_all rfl)

/-- C6: whenever `retirement_projection` returns a result on a valid
input, `accumulation_years = retirement_age - current_age` and
`nest_egg_at_retirement = current_savings * (1 + rate) ^ accumulation_years`. -/
theorem accumulation_formula (ca : Int) (cs : ℚ) (ra n : Int) (r : ℚ)
    (hr : r ≠ 0) (hra : ca < ra) (hn : 1 ≤ n) (hcs : 0 ≤ cs)
    (res : ProjectionResult)
    (h : retirement_projection ca cs ra n r = some res) :
    res.accumulation_years = ra - ca ∧
    res.nest_egg_at_retirement = cs * (1 + r) ^ (ra - ca) := by
  obtain ⟨-, -, rfl⟩ := retirement_projection_some_elim ca cs ra n r res h
  exact ⟨rfl, rfl⟩

/-- C6 witness: the accumulation formulas at concrete inputs. -/
theorem accumulation_formula_witness :
    (⟨1, 200, 400, 100/3, [⟨1, 400, 400, 0⟩]⟩ : ProjectionResult).accumulation_years =
      1 - 0 ∧
    (⟨1, 200, 400, 100/3, [⟨1, 400, 400, 0⟩]⟩ : ProjectionResult).nest_egg_at_retirement =
      100 * (1 + 1) ^ ((1 : Int) - 0) :=
  accumulation_formula 0 100 1 1 1 one_ne_zero (by decide) (by decide) (by norm_num)
    _ (by with_unfolding_all rfl)

/-- C7: on a valid input, the returned schedule has length exactly
`years_in_retirement`, and row `i` carries age `retirement_age + i`, so
the ages run consecutively from `retirement_age` to
`retirement_age + years_in_retirement - 1`. -/
theorem schedule_length_and_ages (ca : Int) (cs : ℚ) (ra n : Int) (r : ℚ)
    (hr : r ≠ 0) (hra : ca < ra) (hn : 1 ≤ n) (hcs : 0 ≤ cs)
    (res : ProjectionResult)
    (h : retirement_projection ca cs ra n r = some res) :
    (res.schedule.length : Int) = n ∧
    ∀ i : Nat, ∀ row ∈ res.schedule[i]?, row.age = ra + i := by
  obtain ⟨-, -, rfl⟩ := retirement_projection_some_elim ca cs ra n r res h
  dsimp only
  constructor
  · rw [distributionLoop_length, Int.toNat_of_nonneg (by omega)]
  · intro i row hrow
    rw [Option.mem_def] at hrow
    have hlen : i < n.toNat := by
      by_contra hc
      rw [List.getElem?_eq_none (by rw [distributionLoop_length]; omega)] at hrow
      exact Option.noConfusion hrow
    rw [distributionLoop_getElem ra r _ n.toNat i 1 _ hlen] at hrow
    obtain rfl := Option.some.inj hrow
    dsimp only
    omega

/-- C7 witness: schedule length and consecutive ages at concrete inputs. -/
theorem schedule_length_and_ages_witness :
    ((⟨1, 200, 800/3, 200/9, [⟨1, 400, 800/3, 400/3⟩, ⟨2, 800/3, 800/3, 0⟩]⟩ :
        ProjectionResult).schedule.length : Int) = 2 ∧
    ∀ i : Nat, ∀ row ∈ (⟨1, 200, 800/3, 200/9,
        [⟨1, 400, 800/3, 400/3⟩, ⟨2, 800/3, 800/3, 0⟩]⟩ :
        ProjectionResult).schedule[i]?, row.age = 1 + i :=
  schedule_length_and_ages 0 100 1 2 1 one_ne_zero (by decide) (by decide) (by norm_num)
    _ (by with_unfolding_all rfl)

set_option maxRecDepth 100000 in
/-- C8: the spec's literal example scenario: inputs `current_age = 44`,
`current_savings = 2000000`, `retirement_age = 50`,
`years_in_retirement = 20`, `annual_growth_rate = 7/100` give
`accumulation_years = 6`, `nest_egg = 2000000 * (107/100)^6`,
`annual_withdrawal = nest_egg * (7/100) / (1 - (107/100)^(-20))`, a
20-row schedule, and a final `end_balance` equal to exactly `0` in exact
rational arithmetic, hence of absolute value below `1`. -/
theorem example_scenario :
    (retirement_projection 44 2000000 50 20 (7/100)).map
      ProjectionResult.accumulation_years = some 6 ∧
    (retirement_projection 44 2000000 50 20 (7/100)).map
      ProjectionResult.nest_egg_at_retirement =
        some (2000000 * (107/100) ^ (6 : Nat)) ∧
    (retirement_projection 44 2000000 50 20 (7/100)).map
      ProjectionResult.annual_withdrawal =
        some (2000000 * (107/100) ^ (6 : Nat) * (7/100) /
          (1 - (107/100) ^ (-(20 : Int)))) ∧
    (retirement_projection 44 2000000 50 20 (7/100)).map
      (fun res => res.schedule.length) = some 20 ∧
    (retirement_projection 44 2000000 50 20 (7/100)).map
      (fun res => res.schedule.getLast?.map ScheduleRow.end_balance) =
        some (some 0) ∧
    |(0 : ℚ)| < 1 := by
  refine ⟨?_, ?_, ?_, ?_, ?_, by norm_num⟩ <;> with_unfolding_all rfl

/-- Scaling `current_savings` by `k` pushes through the whole computation
as `scaleResult k`: none of the branch conditions involves the savings. -/
theorem retirement_projection_scale (ca : Int) (cs : ℚ) (ra n : Int) (r k : ℚ) :
    retirement_projection ca (k * cs) ra n r =
      (retirement_projection ca cs ra n r).map (scaleResult k) := by
  unfold retirement_projection pyPow pyDiv
  dsimp only
  split_ifs with h1 h2 h3
  all_goals try rfl
  simp only []
  split_ifs with h4
  all_goals try rfl
  simp only [Option.map_some', Option.some.injEq, scaleResult,
    ProjectionResult.mk.injEq, scaleRow]
  refine ⟨trivial, by ring, by ring, by ring, ?_⟩
  rw [show k * cs * (1 + r) ^ (ra - ca) = k * (cs * (1 + r) ^ (ra - ca)) by ring]
  rw [show k * (cs * (1 + r) ^ (ra - ca)) / ((1 - (1 + r) ^ (-n)) / r) =
        k * (cs * (1 + r) ^ (ra - ca) / ((1 - (1 + r) ^ (-n)) / r)) by ring]
  exact distributionLoop_scale ra r _ k n.toNat 1 _

/-- C10: `retirement_projection` is homogeneous of degree 1 in
`current_savings`: scaling the savings by `k` scales the nest egg, both
withdrawal figures and every monetary field of every schedule row by `k`,
while `accumulation_years` and the row ages are unchanged (this is what
`scaleResult` expresses). -/
theorem savings_homogeneity (ca : Int) (cs : ℚ) (ra n : Int) (r k : ℚ)
    (hr : r ≠ 0) (res : ProjectionResult)
    (h : retirement_projection ca cs ra n r = some res) :
    retirement_projection ca (k * cs) ra n r = some (scaleResult k res) := by
  rw [retirement_projection_scale, h, Option.map_some']

/-- C10 witness: doubling the savings doubles every monetary output. -/
theorem savings_homogeneity_witness :
    retirement_projection 0 (2 * 100) 1 1 1 =
      some (scaleResult 2 ⟨1, 200, 400, 100/3, [⟨1, 400, 400, 0⟩]⟩) :=
  savings_homogeneity 0 100 1 1 1 2 one_ne_zero _ (by with_unfolding_all rfl)
